import Mathlib

/-!
Verification of the execution core of the Arwen/mx-chain WebAssembly VM host
(repository mx-chain-vm-v1_4-go), against its natural-language specification.

The Go source is shallowly embedded: uint64 values become `Nat` with the
overflow-protected arithmetic of the repository's `math` package made
explicit (`addUint64` saturates at `2^64 - 1`, exactly as `math.AddUint64`
does), fallible functions return `Option GoErr` or `Except GoErr`, and the
state mutated through pointers becomes explicit state passing.  Context
implementations that are outside the provided sources (bigint, output,
runtime, storage contexts) are modelled from the specification, as noted in
their doc comments; `metering.go` and the host dispatcher file are embedded
directly from the source.
-/

namespace VMCore

/-- `2^64`, the modulus of Go's `uint64`. -/
def U64MOD : Nat := 18446744073709551616

/-- `math.MaxUint64`. -/
def U64MAX : Nat := 18446744073709551615

/-- The repository's `math.AddUint64`: overflow-protected addition that
saturates at `math.MaxUint64`. -/
def addUint64 (a b : Nat) : Nat := min (a + b) U64MAX

/-- The repository's `math.SubUint64`: subtraction that bottoms out at `0`
(this is `Nat` subtraction). -/
def subUint64 (a b : Nat) : Nat := a - b

/-- The domain errors of the host that the embedded fragments distinguish.
`errJsonUnmarshal` stands for the error value produced by Go's
`json.Unmarshal` on missing or corrupt input (any such error is distinct
from every named `arwen.Err...` value). -/
inductive GoErr where
  | errNotEnoughGas
  | errInputAndOutputGasDoesNotMatch
  | errInitFuncCalledInRun
  | errCallBackFuncCalledInRun
  | errCallBackFuncNotExpected
  | errJsonUnmarshal
  | errReturnCodeNotOk
  | errExecutionFailed
deriving DecidableEq, Repr

/-! ## Metering context (from src/vmhost/contexts/metering.go)

The fields of `meteringContext` used by the embedded methods, plus the
runtime's `pointsUsed` counter: `GasLeft`, `UseGas` and `UseGasBounded`
read and write `host.Runtime().GetPointsUsed()` / `SetPointsUsed`, so the
counter is carried here as explicit state. -/

structure meteringContext where
  initialGasProvided : Nat
  initialCost : Nat
  gasForExecution : Nat
  /-- `host.Runtime().GetPointsUsed()`, the gas consumed so far on the
  current instance. -/
  pointsUsed : Nat
deriving DecidableEq, Repr

/-- `meteringContext.GasLeft`: returns `gasForExecution - pointsUsed`,
guarded so that it returns `0` instead of underflowing. -/
def GasLeft (context : meteringContext) : Nat :=
  let gasProvided := context.gasForExecution
  let gasUsed := context.pointsUsed
  if gasProvided < gasUsed then 0
  else gasProvided - gasUsed

/-- `meteringContext.UseGas`: adds `gas` to the runtime's points used,
with the overflow-protected addition of the `math` package. -/
def UseGas (context : meteringContext) (gas : Nat) : meteringContext :=
  { context with pointsUsed := addUint64 context.pointsUsed gas }

/-- `meteringContext.UseGasBounded`: errors out with `ErrNotEnoughGas`
when `GasLeft() <= gasToUse`, otherwise consumes the gas.  (The gas
tracing call has no observable effect on the metering state.) -/
def UseGasBounded (context : meteringContext) (gasToUse : Nat) :
    Except GoErr meteringContext :=
  if GasLeft context ≤ gasToUse then .error .errNotEnoughGas
  else .ok (UseGas context gasToUse)

/-- `meteringContext.GetGasProvided`. -/
def GetGasProvided (context : meteringContext) : Nat :=
  context.initialGasProvided

/-! ## Gas accounting check (metering.go, `checkGas` and helpers)

Output accounts and transfers carry more fields in `vmcommon`; only the
gas-bearing fields are read by the embedded functions.  The Go maps are
embedded as lists in iteration order; all the sums computed over them are
order-independent. -/

structure OutputTransfer where
  GasLimit : Nat
  GasLocked : Nat
deriving DecidableEq, Repr

structure OutputAccount where
  GasUsed : Nat
  OutputTransfers : List OutputTransfer
deriving DecidableEq, Repr

structure VMOutputGas where
  OutputAccounts : List OutputAccount
  GasRemaining : Nat
deriving DecidableEq, Repr

/-- `meteringContext.getGasTransferredByAccount`: sums `GasLimit` and
`GasLocked` over the account's output transfers with `math.AddUint64`. -/
def getGasTransferredByAccount (account : OutputAccount) : Nat :=
  account.OutputTransfers.foldl
    (fun gasUsed outputTransfer =>
      addUint64 (addUint64 gasUsed outputTransfer.GasLimit) outputTransfer.GasLocked)
    0

/-- `meteringContext.getCurrentTotalUsedGas`: sums, over all output
accounts, `GasUsed` plus the gas transferred by the account. -/
def getCurrentTotalUsedGas (outputAccounts : List OutputAccount) : Nat :=
  outputAccounts.foldl
    (fun gasUsed outputAccount =>
      addUint64 (addUint64 gasUsed outputAccount.GasUsed)
        (getGasTransferredByAccount outputAccount))
    0

/-- `meteringContext.checkGas`: recomputes the total used gas from the
output accounts (the embedded list models
`host.Output().GetOutputAccounts()`), adds `vmOutput.GasRemaining`, and
returns `ErrInputAndOutputGasDoesNotMatch` unless the total equals the
provided gas. -/
def checkGas (context : meteringContext) (vmOutput : VMOutputGas) :
    Option GoErr :=
  let gasUsed := getCurrentTotalUsedGas vmOutput.OutputAccounts
  let totalGas := addUint64 gasUsed vmOutput.GasRemaining
  let gasProvided := GetGasProvided context
  if totalGas ≠ gasProvided then some .errInputAndOutputGasDoesNotMatch
  else none

/-- The mathematical sum the specification describes: over all output
accounts, `GasUsed` plus `GasLimit + GasLocked` of every transfer. -/
def totalUsedGasSpec (outputAccounts : List OutputAccount) : Nat :=
  (outputAccounts.map (fun a =>
    a.GasUsed + (a.OutputTransfers.map (fun t => t.GasLimit + t.GasLocked)).sum)).sum

/-! ## Function-call gating (host dispatcher, `verifyAllowedFunctionCall`) -/

/-- Modelled from the spec: the name of the init function, callable only
during deployment. -/
def InitFunctionName : String := "init"

/-- Modelled from the spec: the Ethereum alias of the init function. -/
def InitFunctionNameEth : String := "main"

/-- Modelled from the spec: the literal name of the callback function. -/
def CallBackFunctionName : String := "callBack"

/-- `vmcommon.CallType`. -/
inductive CallType where
  | directCall
  | asynchronousCall
  | asynchronousCallBack
deriving DecidableEq, Repr

/-- `vmHost.verifyAllowedFunctionCall`: rejects the init function (and its
Ethereum alias) outside deployment, and the literal `callBack` function
outside an asynchronous-callback dispatch.  `functionName` embeds
`runtime.Function()` and `callType` embeds
`runtime.GetVMInput().CallType`. -/
def verifyAllowedFunctionCall (functionName : String) (callType : CallType) :
    Option GoErr :=
  let isInit := functionName == InitFunctionName || functionName == InitFunctionNameEth
  if isInit then some .errInitFuncCalledInRun
  else
    let isCallBack := functionName == CallBackFunctionName
    let isInAsyncCallBack := callType == CallType.asynchronousCallBack
    if isCallBack && !isInAsyncCallBack then some .errCallBackFuncCalledInRun
    else none

/-! ## Async-call data model (`vmcommon.AsyncContextInfo` and friends)

Go maps are embedded as association lists in iteration order; the Go
source iterates its maps in an unspecified order, and the embedded list
order stands for the order one concrete run uses. -/

/-- `vmcommon.AsyncCallStatus`. -/
inductive AsyncCallStatus where
  | pending
  | resolved
  | rejected
deriving DecidableEq, Repr

/-- `vmcommon.AsyncGeneratedCall` (the fields read by the embedded code;
addresses are embedded as strings, as the Go code only compares them with
`bytes.Equal`). -/
structure AsyncGeneratedCall where
  Status : AsyncCallStatus
  Destination : String
  GasLimit : Nat
  GasPercentage : Int
  SuccessCallback : String
  ErrorCallback : String
deriving DecidableEq, Repr

/-- `vmcommon.AsyncContext`. -/
structure AsyncContext where
  Callback : String
  AsyncCalls : List AsyncGeneratedCall
deriving DecidableEq, Repr

/-- `vmcommon.AsyncContextInfo`; `CallerAddr` and `ReturnData` form the
`AsyncInitiator`. -/
structure AsyncContextInfo where
  CallerAddr : String
  ReturnData : String
  AsyncContextMap : List (String × AsyncContext)
deriving DecidableEq, Repr

/-! ## Gas split by percentages (`setupAsyncCallsGasByPercentages`) -/

/-- Go's `uint64(x)` conversion applied to a (possibly negative) integer:
reduction modulo `2^64`. -/
def u64OfInt (i : Int) : Nat := (i % (18446744073709551616 : Int)).toNat

/-- Go's `int32` wrap-around, applied after each `+=` on the percentage
accumulator. -/
def int32Wrap (i : Int) : Int := (i + 2147483648) % 4294967296 - 2147483648

/-- The total of all `GasPercentage` values of `asyncInfo`, accumulated as
in the first loop of `setupAsyncCallsGasByPercentages` (an `int32`
accumulator). -/
def totalGasPercentage (asyncInfo : AsyncContextInfo) : Int :=
  asyncInfo.AsyncContextMap.foldl
    (fun acc e => e.snd.AsyncCalls.foldl
      (fun a c => int32Wrap (a + c.GasPercentage)) acc)
    0

/-- The per-call gas limit computed on line
`gasLimit := gasLeft*uint64(asyncCall.GasPercentage/totalPercentage)`:
Go `int32` division truncates toward zero (`Int.tdiv`), the quotient is
converted to `uint64`, and the multiplication is Go's wrapping `uint64`
multiplication.  (Go panics when `totalPercentage` is `0`; the embedding
is only meaningful for a nonzero total.) -/
def gasLimitOfCall (gasLeft : Nat) (totalPercentage : Int)
    (asyncCall : AsyncGeneratedCall) : Nat :=
  (gasLeft * u64OfInt (Int.tdiv asyncCall.GasPercentage totalPercentage)) % U64MOD

/-- Applies `f` to the element at position `idx`, if any. -/
def modifyAt {α : Type} (f : α → α) (idx : Nat) (xs : List α) : List α :=
  xs.enum.map (fun p => if p.fst = idx then f p.snd else p.snd)

/-- `vmHost.setupAsyncCallsGasByPercentages`: assigns every async call the
gas limit `gasLeft * uint64(GasPercentage / totalPercentage)` and, when
the limits assigned add up to less than `gasLeft`, adds the difference to
the call at the last iterated (context, index) position.  `gasLeft`
embeds `host.Metering().GasLeft()`. -/
def setupAsyncCallsGasByPercentages (gasLeft : Nat)
    (asyncInfo : AsyncContextInfo) : AsyncContextInfo :=
  let totalPercentage := totalGasPercentage asyncInfo
  let newMap := asyncInfo.AsyncContextMap.map (fun e =>
    (e.fst, { e.snd with AsyncCalls := e.snd.AsyncCalls.map (fun c =>
      { c with GasLimit := gasLimitOfCall gasLeft totalPercentage c }) }))
  let gasAdded := newMap.foldl
    (fun acc e => e.snd.AsyncCalls.foldl
      (fun a c => (a + c.GasLimit) % U64MOD) acc)
    0
  let lastTracked := asyncInfo.AsyncContextMap.foldl
    (fun (p : String × Nat) e =>
      (e.fst, if e.snd.AsyncCalls.isEmpty then p.snd else e.snd.AsyncCalls.length - 1))
    ("", 0)
  if lastTracked.fst.length > 0 && gasAdded < gasLeft then
    { asyncInfo with AsyncContextMap := newMap.map (fun e =>
        if e.fst == lastTracked.fst then
          (e.fst, { e.snd with AsyncCalls :=
            (modifyAt
              (fun c => { c with GasLimit := (c.GasLimit + (gasLeft - gasAdded)) % U64MOD })
              lastTracked.snd e.snd.AsyncCalls) })
        else e) }
  else { asyncInfo with AsyncContextMap := newMap }

/-! ## Cross-shard callback resolution (`processCallbackStack`)

The storage value under the async key is embedded as
`Option AsyncContextInfo`: `none` stands for a missing key or a byte
string `json.Unmarshal` rejects (both produce the unmarshal error), and
`some info` for the serialization of `info`.  `callerAddr` embeds
`runtime.GetVMInput().CallerAddr`.  The tail of the Go function — sending
the storage callback cross-shard or executing the initiator's callback
locally — is outside the behaviour the embedded claims are about and is
abstracted by `finishCtx`, which may fail.  `storage.SetStorage` is
embedded as always succeeding (the in-memory storage context only fails
in read-only mode). -/

/-- `vmHost.processCallbackStack`.  Returns the value left under the
async storage key, paired with the returned error.

Two details are embedded deliberately, straight from the Go source:
the swap-remove on lines 771-774 reassigns a *local* slice variable, so
the map entry keeps its original length (and the context is therefore
deleted exactly when its call list had length 1); and when the in-memory
map still has entries after the removal step, the function returns
without ever writing the mutated map back to storage. -/
def processCallbackStack (finishCtx : AsyncContextInfo → Option GoErr)
    (stored : Option AsyncContextInfo) (callerAddr : String) :
    Option AsyncContextInfo × Option GoErr :=
  match stored with
  | none => (none, some .errJsonUnmarshal)
  | some asyncInfo =>
    let currentContextIdentifier :=
      match asyncInfo.AsyncContextMap.find?
          (fun e => e.snd.AsyncCalls.any (fun c => c.Destination == callerAddr)) with
      | some e => e.fst
      | none => ""
    if currentContextIdentifier.length == 0 then
      (some asyncInfo, some .errCallBackFuncNotExpected)
    else
      let currentContextCallsLen :=
        match asyncInfo.AsyncContextMap.find? (fun e => e.fst == currentContextIdentifier) with
        | some e => e.snd.AsyncCalls.length
        | none => 0
      let mapAfter :=
        if currentContextCallsLen - 1 == 0 then
          asyncInfo.AsyncContextMap.filter (fun e => e.fst != currentContextIdentifier)
        else asyncInfo.AsyncContextMap
      if mapAfter.length > 0 then (some asyncInfo, none)
      else (none, finishCtx asyncInfo)

/-! ## Execution-context state stacks

Modelled from the spec: every execution context keeps an active state and
a snapshot stack with `PushState` (snapshot the active state),
`PopSetActiveState` (restore the snapshot), `PopMergeActiveState` (absorb
the snapshot into the active state) and `PopDiscard` (drop the snapshot,
keep the active state).  The one context implementation inside the
sources, `meteringContext`, realizes exactly this discipline, including
the no-op behaviour of the pop operations on an empty stack; the generic
embedding reproduces it for an arbitrary per-context state type. -/

structure StackCtx (α : Type) where
  active : α
  stack : List α
deriving DecidableEq, Repr

/-- `PushState`: append the current active state to the state stack. -/
def PushState {α : Type} (c : StackCtx α) : StackCtx α :=
  { c with stack := c.active :: c.stack }

/-- `PopSetActiveState`: pop the top snapshot and make it the active
state; no-op on an empty stack. -/
def PopSetActiveState {α : Type} (c : StackCtx α) : StackCtx α :=
  match c.stack with
  | [] => c
  | prevState :: rest => { active := prevState, stack := rest }

/-- `PopDiscard`: pop the top snapshot and discard it, keeping the active
state; no-op on an empty stack. -/
def PopDiscard {α : Type} (c : StackCtx α) : StackCtx α :=
  match c.stack with
  | [] => c
  | _ :: rest => { c with stack := rest }

/-- `PopMergeActiveState`: pop the top snapshot and merge it into the
active state (`merge snapshot active`); no-op on an empty stack. -/
def PopMergeActiveState {α : Type} (merge : α → α → α) (c : StackCtx α) :
    StackCtx α :=
  match c.stack with
  | [] => c
  | prevState :: rest => { active := merge prevState c.active, stack := rest }

/-! ## Synchronous sub-call protocol (`ExecuteOnDestContext`,
`ExecuteOnSameContext`)

The four contexts touched by the protocol are carried in a `HostState`
over abstract per-context state types.  The context methods whose
implementations are outside the provided sources are supplied as the
fields of a `HostOps` record, each modelled from the spec as a pure
function of the states it reads; the `ContractCallInput` of the sub-call
is already applied inside the fields that depend on it, so quantifying
over `HostOps` quantifies over the input.  The host methods `execute` and
`processAsyncInfo`, which re-enter the engine and may recursively run
sub-calls, are abstract state transformers; the theorems assume only that
they leave every state stack as they found it (which holds of the real
methods, whose pushes and pops are balanced on every path). -/

structure HostState (β ω ρ σ : Type) where
  bigInt : StackCtx β
  output : StackCtx ω
  runtime : StackCtx ρ
  storage : StackCtx σ
deriving DecidableEq, Repr

structure HostOps (β ω ρ σ ν : Type) where
  /-- Modelled from the spec: `bigInt.InitState()`. -/
  bigIntInitState : β → β
  /-- Modelled from the spec: `output.CensorVMOutput()` blanks the output
  accumulator. -/
  censorVMOutput : ω → ω
  /-- Modelled from the spec: `runtime.InitStateFromContractCallInput(input)`
  (the sub-call's input already applied). -/
  runtimeInitFromInput : ρ → ρ
  /-- Modelled from the spec: `runtime.GetSCAddress()`. -/
  runtimeGetSCAddress : ρ → String
  /-- Modelled from the spec: `storage.SetAddress(addr)`. -/
  storageSetAddress : String → σ → σ
  /-- Modelled from the spec:
  `output.Transfer(input.RecipientAddr, input.CallerAddr, 0, input.CallValue, nil)`
  records a value transfer in the active output state and may fail. -/
  outputTransfer : ω → ω × Option GoErr
  /-- `host.execute(input)` (abstract: runs the engine, mutates the host
  state, may fail). -/
  hostExecute : HostState β ω ρ σ → HostState β ω ρ σ × Option GoErr
  /-- `host.processAsyncInfo(runtime.GetAsyncContextInfo())` (abstract). -/
  processAsyncInfoFn : HostState β ω ρ σ → HostState β ω ρ σ × Option GoErr
  /-- Modelled from the spec: the output context's merge on
  `PopMergeActiveState`, absorbing the popped parent snapshot and the
  child's active output (`merge snapshot active`). -/
  mergeOutput : ω → ω → ω
  /-- Modelled from the spec: `output.CreateVMOutputInCaseOfError(err)`
  wraps an error into a `VMOutput`, reading the active output state. -/
  createVMOutputInCaseOfError : ω → GoErr → ν
  /-- Modelled from the spec: `output.GetVMOutput()` extracts the
  `VMOutput` accumulated in the active output state. -/
  getVMOutput : ω → ν

/-- A state transformer leaves every context's state stack as it found
it.  This holds of `host.execute` and `host.processAsyncInfo`: each of
their push operations is paired with a pop on every control path. -/
def StacksPreserved {β ω ρ σ : Type}
    (f : HostState β ω ρ σ → HostState β ω ρ σ × Option GoErr) : Prop :=
  ∀ t : HostState β ω ρ σ,
    (f t).fst.bigInt.stack = t.bigInt.stack ∧
    (f t).fst.output.stack = t.output.stack ∧
    (f t).fst.runtime.stack = t.runtime.stack ∧
    (f t).fst.storage.stack = t.storage.stack

/-- The prologue of `ExecuteOnDestContext` (lines 152-162): push all four
contexts, then re-initialize the bigint/output/runtime active states and
point storage at the new contract address. -/
def prepareOnDest {β ω ρ σ ν : Type} (ops : HostOps β ω ρ σ ν)
    (s : HostState β ω ρ σ) : HostState β ω ρ σ :=
  let newRuntimeActive := ops.runtimeInitFromInput s.runtime.active
  { bigInt := { (PushState s.bigInt) with active := ops.bigIntInitState s.bigInt.active }
    output := { (PushState s.output) with active := ops.censorVMOutput s.output.active }
    runtime := { (PushState s.runtime) with active := newRuntimeActive }
    storage := { (PushState s.storage) with
      active := ops.storageSetAddress (ops.runtimeGetSCAddress newRuntimeActive) s.storage.active } }

/-- The value-transfer step: `output.Transfer(...)` updates the active
output state and may fail. -/
def transferStep {β ω ρ σ ν : Type} (ops : HostOps β ω ρ σ ν)
    (s1 : HostState β ω ρ σ) : HostState β ω ρ σ × Option GoErr :=
  let tr := ops.outputTransfer s1.output.active
  ({ s1 with output := { s1.output with active := tr.fst } }, tr.snd)

/-- Early-return sequencing of the Go bodies: run `step` only when the
previous step produced no error. -/
def andThen {β ω ρ σ : Type}
    (step : HostState β ω ρ σ → HostState β ω ρ σ × Option GoErr)
    (r : HostState β ω ρ σ × Option GoErr) :
    HostState β ω ρ σ × Option GoErr :=
  match r with
  | (t, some e) => (t, some e)
  | (t, none) => step t

/-- The body of `ExecuteOnDestContext` between the pushes and the
deferred finish: the value transfer to the callee, then `host.execute`,
then `host.processAsyncInfo`, stopping at the first error. -/
def innerRunOnDest {β ω ρ σ ν : Type} (ops : HostOps β ω ρ σ ν)
    (s : HostState β ω ρ σ) : HostState β ω ρ σ × Option GoErr :=
  andThen ops.processAsyncInfoFn
    (andThen ops.hostExecute (transferStep ops (prepareOnDest ops s)))

/-- `vmHost.finishExecuteOnDestContext`: on error, create the
error-wrapping `VMOutput` first, then `PopSetActiveState` on all four
contexts; on success, extract the child's `VMOutput` first, then
`PopSetActiveState` on bigint/runtime/storage and `PopMergeActiveState`
on output. -/
def finishExecuteOnDestContext {β ω ρ σ ν : Type} (ops : HostOps β ω ρ σ ν)
    (executeErr : Option GoErr) (s : HostState β ω ρ σ) :
    HostState β ω ρ σ × ν :=
  match executeErr with
  | some e =>
    let vmOutput := ops.createVMOutputInCaseOfError s.output.active e
    ({ bigInt := PopSetActiveState s.bigInt
       output := PopSetActiveState s.output
       runtime := PopSetActiveState s.runtime
       storage := PopSetActiveState s.storage }, vmOutput)
  | none =>
    let vmOutput := ops.getVMOutput s.output.active
    ({ bigInt := PopSetActiveState s.bigInt
       output := PopMergeActiveState ops.mergeOutput s.output
       runtime := PopSetActiveState s.runtime
       storage := PopSetActiveState s.storage }, vmOutput)

/-- `vmHost.ExecuteOnDestContext`: runs the prologue and body, then the
deferred `finishExecuteOnDestContext` on the resulting state and error;
returns the final host state, the `VMOutput` and the error handed to the
caller. -/
def ExecuteOnDestContext {β ω ρ σ ν : Type} (ops : HostOps β ω ρ σ ν)
    (s : HostState β ω ρ σ) : HostState β ω ρ σ × ν × Option GoErr :=
  let r := innerRunOnDest ops s
  let f := finishExecuteOnDestContext ops r.snd r.fst
  (f.fst, f.snd, r.snd)

/-- The prologue of `ExecuteOnSameContext` (lines 223-227): push
bigint/output/runtime (storage is not touched), then re-initialize the
runtime active state from the input. -/
def prepareOnSame {β ω ρ σ ν : Type} (ops : HostOps β ω ρ σ ν)
    (s : HostState β ω ρ σ) : HostState β ω ρ σ :=
  { bigInt := PushState s.bigInt
    output := PushState s.output
    runtime := { (PushState s.runtime) with active := ops.runtimeInitFromInput s.runtime.active }
    storage := s.storage }

/-- The body of `ExecuteOnSameContext` between the pushes and the
deferred finish: the value transfer and `host.execute` (the async info is
only read, not processed, on this path). -/
def innerRunOnSame {β ω ρ σ ν : Type} (ops : HostOps β ω ρ σ ν)
    (s : HostState β ω ρ σ) : HostState β ω ρ σ × Option GoErr :=
  andThen ops.hostExecute (transferStep ops (prepareOnSame ops s))

/-- `vmHost.finishExecuteOnSameContext`: on error, `PopSetActiveState` on
bigint/output/runtime; on success, `PopDiscard` on bigint/output and
`PopSetActiveState` on runtime.  Storage is never touched. -/
def finishExecuteOnSameContext {β ω ρ σ : Type}
    (executeErr : Option GoErr) (s : HostState β ω ρ σ) : HostState β ω ρ σ :=
  match executeErr with
  | some _ =>
    { s with bigInt := PopSetActiveState s.bigInt
             output := PopSetActiveState s.output
             runtime := PopSetActiveState s.runtime }
  | none =>
    { s with bigInt := PopDiscard s.bigInt
             output := PopDiscard s.output
             runtime := PopSetActiveState s.runtime }

/-- `vmHost.ExecuteOnSameContext`: prologue, body, then the deferred
`finishExecuteOnSameContext`. -/
def ExecuteOnSameContext {β ω ρ σ ν : Type} (ops : HostOps β ω ρ σ ν)
    (s : HostState β ω ρ σ) : HostState β ω ρ σ × Option GoErr :=
  let r := innerRunOnSame ops s
  (finishExecuteOnSameContext r.snd r.fst, r.snd)

/-! ## Concrete fixtures used to evaluate the embedded functions -/

/-- A concrete `HostOps` instance over `Nat` states whose `execute` step
fails; used to evaluate the sub-call protocol on the error path. -/
def opsErrW : HostOps Nat Nat Nat Nat Nat :=
  { bigIntInitState := fun _ => 0
    censorVMOutput := fun _ => 0
    runtimeInitFromInput := fun r => r + 10
    runtimeGetSCAddress := fun _ => "sc"
    storageSetAddress := fun _ x => x + 1
    outputTransfer := fun o => (o + 2, none)
    hostExecute := fun t => (t, some .errReturnCodeNotOk)
    processAsyncInfoFn := fun t => (t, none)
    mergeOutput := fun a b => a + b
    createVMOutputInCaseOfError := fun o _ => o + 100
    getVMOutput := fun o => o }

/-- A concrete `HostOps` instance over `Nat` states whose `execute` step
succeeds and bumps the active output and storage states. -/
def opsOkW : HostOps Nat Nat Nat Nat Nat :=
  { opsErrW with
    hostExecute := fun t =>
      ({ t with output := { t.output with active := t.output.active + 5 }
                storage := { t.storage with active := t.storage.active + 7 } }, none) }

/-- A concrete initial host state. -/
def sW : HostState Nat Nat Nat Nat :=
  { bigInt := ⟨1, []⟩, output := ⟨2, []⟩, runtime := ⟨3, []⟩, storage := ⟨4, []⟩ }

/-- A stored pending set of two pending calls (destinations `B`, `C`) in
one async context. -/
def infoTwoCalls : AsyncContextInfo :=
  { CallerAddr := "A"
    ReturnData := ""
    AsyncContextMap := [("ctx1",
      { Callback := "cb"
        AsyncCalls := [
          ⟨.pending, "B", 0, 50, "scb", "ecb"⟩,
          ⟨.pending, "C", 0, 50, "scb", "ecb"⟩] })] }

/-- A stored pending set with a single pending call to `B`. -/
def infoOneCall : AsyncContextInfo :=
  { CallerAddr := "A"
    ReturnData := ""
    AsyncContextMap := [("ctx1",
      { Callback := "cb"
        AsyncCalls := [⟨.pending, "B", 0, 50, "scb", "ecb"⟩] })] }

/-- An async set with two calls at 50% each; exercises the gas split. -/
def infoFiftyFifty : AsyncContextInfo :=
  { CallerAddr := "A"
    ReturnData := ""
    AsyncContextMap := [("ctx1",
      { Callback := "cb"
        AsyncCalls := [
          ⟨.pending, "B", 0, 50, "scb", "ecb"⟩,
          ⟨.pending, "C", 0, 50, "scb", "ecb"⟩] })] }

/-- An async set with a single call at 50%; exercises the single-entry gas
split. -/
def infoSingleFifty : AsyncContextInfo :=
  { CallerAddr := "A"
    ReturnData := ""
    AsyncContextMap := [("ctx1",
      { Callback := "cb"
        AsyncCalls := [⟨.pending, "B", 0, 50, "scb", "ecb"⟩] })] }

/-! ## Theorems -/

/-- C10: `GasLeft` returns `gasForExecution - pointsUsed` when the points
used are at most `gasForExecution`, returns exactly `0` when the points
used exceed it, and in particular never underflows after `UseGas` pushes
the points used above the gas provided for execution. -/
theorem GasLeft_no_underflow (context : meteringContext) :
    (context.pointsUsed ≤ context.gasForExecution →
      GasLeft context = context.gasForExecution - context.pointsUsed) ∧
    (context.gasForExecution < context.pointsUsed → GasLeft context = 0) ∧
    (∀ gas : Nat, context.gasForExecution < (UseGas context gas).pointsUsed →
      GasLeft (UseGas context gas) = 0) := by
  refine ⟨fun h => ?_, fun h => ?_, fun gas h => ?_⟩
  · simp [GasLeft, Nat.not_lt.mpr h]
  · simp [GasLeft, h]
  · simp only [UseGas] at h ⊢
    simp [GasLeft, h]

/-- Witness for C10 at concrete metering states. -/
theorem GasLeft_no_underflow_witness :
    ((30 : Nat) ≤ 80 ∧ GasLeft ⟨100, 0, 80, 30⟩ = 50) ∧
    ((80 : Nat) < 90 ∧ GasLeft ⟨100, 0, 80, 90⟩ = 0) :=
  ⟨⟨by decide, (GasLeft_no_underflow ⟨100, 0, 80, 30⟩).1 (by decide)⟩,
   ⟨by decide, (GasLeft_no_underflow ⟨100, 0, 80, 90⟩).2.1 (by decide)⟩⟩

/-- C9 counterexample: with 5 gas left, `UseGasBounded 5` returns the
out-of-gas error although 5 does not exceed the remaining gas — the
comparison in the source is `GasLeft() <= gasToUse`, so the claim's
"exactly when gasToUse exceeds GasLeft" fails at equality. -/
theorem UseGasBounded_boundary_counterexample :
    GasLeft ⟨10, 0, 10, 5⟩ = 5 ∧
    ¬ (5 : Nat) > GasLeft ⟨10, 0, 10, 5⟩ ∧
    UseGasBounded ⟨10, 0, 10, 5⟩ 5 = Except.error GoErr.errNotEnoughGas :=
  ⟨by decide, by decide, rfl⟩

/-- C9 amended: `UseGasBounded` returns the out-of-gas error exactly when
`gasToUse` is at least the remaining gas (so also when it equals
`GasLeft`), and otherwise consumes `gasToUse` without error. -/
theorem UseGasBounded_spec (context : meteringContext) (gasToUse : Nat) :
    (GasLeft context ≤ gasToUse →
      UseGasBounded context gasToUse = Except.error GoErr.errNotEnoughGas) ∧
    (gasToUse < GasLeft context →
      UseGasBounded context gasToUse = Except.ok (UseGas context gasToUse)) := by
  refine ⟨fun h => ?_, fun h => ?_⟩
  · simp [UseGasBounded, h]
  · simp [UseGasBounded, Nat.not_le.mpr h]

/-- Witness for C9's amended theorem at a concrete metering state. -/
theorem UseGasBounded_spec_witness :
    (GasLeft ⟨10, 0, 10, 2⟩ ≤ 9 ∧
      UseGasBounded ⟨10, 0, 10, 2⟩ 9 = Except.error GoErr.errNotEnoughGas) ∧
    ((3 : Nat) < GasLeft ⟨10, 0, 10, 2⟩ ∧
      UseGasBounded ⟨10, 0, 10, 2⟩ 3 = Except.ok (UseGas ⟨10, 0, 10, 2⟩ 3)) :=
  ⟨⟨by decide, (UseGasBounded_spec ⟨10, 0, 10, 2⟩ 9).1 (by decide)⟩,
   ⟨by decide, (UseGasBounded_spec ⟨10, 0, 10, 2⟩ 3).2 (by decide)⟩⟩

/-- C7: `verifyAllowedFunctionCall` rejects the init function and its
Ethereum alias with `ErrInitFuncCalledInRun`, rejects the literal
`callBack` function outside an asynchronous-callback dispatch with
`ErrCallBackFuncCalledInRun`, and accepts every other combination. -/
theorem verifyAllowedFunctionCall_spec (functionName : String) (callType : CallType) :
    ((functionName = InitFunctionName ∨ functionName = InitFunctionNameEth) →
      verifyAllowedFunctionCall functionName callType
        = some GoErr.errInitFuncCalledInRun) ∧
    (functionName = CallBackFunctionName →
      callType ≠ CallType.asynchronousCallBack →
      verifyAllowedFunctionCall functionName callType
        = some GoErr.errCallBackFuncCalledInRun) ∧
    (¬ (functionName = InitFunctionName ∨ functionName = InitFunctionNameEth) →
      ¬ (functionName = CallBackFunctionName ∧ callType ≠ CallType.asynchronousCallBack) →
      verifyAllowedFunctionCall functionName callType = none) := by
  refine ⟨fun h => ?_, fun h hct => ?_, fun h1 h2 => ?_⟩
  · rcases h with h | h <;> simp [verifyAllowedFunctionCall, h]
  · subst h
    cases callType with
    | directCall => decide
    | asynchronousCall => decide
    | asynchronousCallBack => exact absurd rfl hct
  · push_neg at h1
    obtain ⟨hni, hne⟩ := h1
    by_cases hcb : functionName = CallBackFunctionName
    · have hct : callType = CallType.asynchronousCallBack := by
        by_contra hct
        exact h2 ⟨hcb, hct⟩
      subst hcb
      subst hct
      decide
    · simp [verifyAllowedFunctionCall, hni, hne, hcb]

/-- Witness for C7 at concrete function names and call types. -/
theorem verifyAllowedFunctionCall_spec_witness :
    (("init" = InitFunctionName ∨ "init" = InitFunctionNameEth) ∧
      verifyAllowedFunctionCall "init" CallType.directCall
        = some GoErr.errInitFuncCalledInRun) ∧
    (("callBack" = CallBackFunctionName ∧
        CallType.directCall ≠ CallType.asynchronousCallBack) ∧
      verifyAllowedFunctionCall "callBack" CallType.directCall
        = some GoErr.errCallBackFuncCalledInRun) ∧
    verifyAllowedFunctionCall "increment" CallType.directCall = none :=
  ⟨⟨Or.inl rfl,
      (verifyAllowedFunctionCall_spec "init" CallType.directCall).1 (Or.inl rfl)⟩,
   ⟨⟨rfl, by decide⟩,
      (verifyAllowedFunctionCall_spec "callBack" CallType.directCall).2.1 rfl (by decide)⟩,
   (verifyAllowedFunctionCall_spec "increment" CallType.directCall).2.2
      (by decide) (by decide)⟩

theorem addUint64_of_le (a b : Nat) (h : a + b ≤ U64MAX) :
    addUint64 a b = a + b :=
  min_eq_left h

theorem foldl_transfers_eq (ts : List OutputTransfer) (a : Nat)
    (h : a + (ts.map (fun t => t.GasLimit + t.GasLocked)).sum ≤ U64MAX) :
    ts.foldl
      (fun gasUsed outputTransfer =>
        addUint64 (addUint64 gasUsed outputTransfer.GasLimit) outputTransfer.GasLocked)
      a
      = a + (ts.map (fun t => t.GasLimit + t.GasLocked)).sum := by
  induction ts generalizing a with
  | nil => simp
  | cons t ts ih =>
    simp only [List.map_cons, List.sum_cons] at h
    simp only [List.foldl_cons, List.map_cons, List.sum_cons]
    rw [addUint64_of_le a t.GasLimit (by omega),
        addUint64_of_le (a + t.GasLimit) t.GasLocked (by omega),
        ih (a + t.GasLimit + t.GasLocked) (by omega)]
    omega

theorem getGasTransferredByAccount_eq (account : OutputAccount)
    (h : (account.OutputTransfers.map (fun t => t.GasLimit + t.GasLocked)).sum ≤ U64MAX) :
    getGasTransferredByAccount account
      = (account.OutputTransfers.map (fun t => t.GasLimit + t.GasLocked)).sum := by
  have := foldl_transfers_eq account.OutputTransfers 0 (by omega)
  simpa [getGasTransferredByAccount] using this

theorem getCurrentTotalUsedGas_eq (outputAccounts : List OutputAccount) (g : Nat)
    (h : g + totalUsedGasSpec outputAccounts ≤ U64MAX) :
    outputAccounts.foldl
      (fun gasUsed outputAccount =>
        addUint64 (addUint64 gasUsed outputAccount.GasUsed)
          (getGasTransferredByAccount outputAccount))
      g
      = g + totalUsedGasSpec outputAccounts := by
  induction outputAccounts generalizing g with
  | nil => simp [totalUsedGasSpec]
  | cons a as ih =>
    simp only [totalUsedGasSpec, List.map_cons, List.sum_cons] at h
    simp only [List.foldl_cons, totalUsedGasSpec, List.map_cons, List.sum_cons]
    rw [getGasTransferredByAccount_eq a (by omega),
        addUint64_of_le g a.GasUsed (by omega),
        addUint64_of_le (g + a.GasUsed)
          ((a.OutputTransfers.map (fun t => t.GasLimit + t.GasLocked)).sum) (by omega)]
    have := ih (g + a.GasUsed + (a.OutputTransfers.map (fun t => t.GasLimit + t.GasLocked)).sum)
      (by simp only [totalUsedGasSpec]; omega)
    simp only [totalUsedGasSpec] at this
    rw [this]
    omega

/-- C2: provided the true total fits in a `uint64`, `checkGas` succeeds
exactly when the sum over all output accounts of `GasUsed` plus the
`GasLimit` and `GasLocked` of every output transfer, plus
`vmOutput.GasRemaining`, equals the provided gas — so every successful
dispatch satisfies the accounting invariant — and it returns
`ErrInputAndOutputGasDoesNotMatch` whenever the sum differs. -/
theorem checkGas_spec (context : meteringContext) (vmOutput : VMOutputGas)
    (h : totalUsedGasSpec vmOutput.OutputAccounts + vmOutput.GasRemaining ≤ U64MAX) :
    (checkGas context vmOutput = none ↔
      totalUsedGasSpec vmOutput.OutputAccounts + vmOutput.GasRemaining
        = GetGasProvided context) ∧
    (totalUsedGasSpec vmOutput.OutputAccounts + vmOutput.GasRemaining
        ≠ GetGasProvided context →
      checkGas context vmOutput = some GoErr.errInputAndOutputGasDoesNotMatch) := by
  have hg : getCurrentTotalUsedGas vmOutput.OutputAccounts
      = totalUsedGasSpec vmOutput.OutputAccounts := by
    have := getCurrentTotalUsedGas_eq vmOutput.OutputAccounts 0 (by omega)
    simpa [getCurrentTotalUsedGas] using this
  have ht : addUint64 (getCurrentTotalUsedGas vmOutput.OutputAccounts) vmOutput.GasRemaining
      = totalUsedGasSpec vmOutput.OutputAccounts + vmOutput.GasRemaining := by
    rw [hg]
    exact addUint64_of_le _ _ h
  simp only [checkGas, ht]
  by_cases heq : totalUsedGasSpec vmOutput.OutputAccounts + vmOutput.GasRemaining
      = GetGasProvided context
  · simp [heq]
  · simp [heq]

/-- Witness for C2 at a concrete metering state and output: one account
with 3 gas used and one transfer carrying limit 2 and locked 1, with 4
gas remaining, against 10 provided. -/
theorem checkGas_spec_witness :
    (totalUsedGasSpec [⟨3, [⟨2, 1⟩]⟩] + 4 ≤ U64MAX) ∧
    ((checkGas ⟨10, 0, 0, 0⟩ ⟨[⟨3, [⟨2, 1⟩]⟩], 4⟩ = none ↔
        totalUsedGasSpec [⟨3, [⟨2, 1⟩]⟩] + 4 = GetGasProvided ⟨10, 0, 0, 0⟩) ∧
      (totalUsedGasSpec [⟨3, [⟨2, 1⟩]⟩] + 4 ≠ GetGasProvided ⟨10, 0, 0, 0⟩ →
        checkGas ⟨10, 0, 0, 0⟩ ⟨[⟨3, [⟨2, 1⟩]⟩], 4⟩
          = some GoErr.errInputAndOutputGasDoesNotMatch)) :=
  ⟨by decide, checkGas_spec ⟨10, 0, 0, 0⟩ ⟨[⟨3, [⟨2, 1⟩]⟩], 4⟩ (by decide)⟩

/-- C8 counterexample: when the stored async info is missing (or cannot
be unmarshalled), `processCallbackStack` returns the raw JSON unmarshal
error, not `ErrCallBackFuncNotExpected` as claimed. -/
theorem processCallbackStack_missing_counterexample :
    (processCallbackStack (fun _ => none) none "B").snd
      = some GoErr.errJsonUnmarshal ∧
    (processCallbackStack (fun _ => none) none "B").snd
      ≠ some GoErr.errCallBackFuncNotExpected :=
  ⟨rfl, by decide⟩

/-- C8 amended: `processCallbackStack` returns the JSON unmarshal error
when the stored `AsyncContextInfo` is missing or cannot be unmarshalled,
and returns `ErrCallBackFuncNotExpected` when the stored info contains no
async call whose `Destination` equals `vmInput.CallerAddr`. -/
theorem processCallbackStack_error_spec
    (finishCtx : AsyncContextInfo → Option GoErr) (callerAddr : String) :
    (processCallbackStack finishCtx none callerAddr
      = (none, some GoErr.errJsonUnmarshal)) ∧
    (∀ info : AsyncContextInfo,
      (∀ p ∈ info.AsyncContextMap, ∀ c ∈ p.snd.AsyncCalls,
        c.Destination ≠ callerAddr) →
      processCallbackStack finishCtx (some info) callerAddr
        = (some info, some GoErr.errCallBackFuncNotExpected)) := by
  refine ⟨rfl, fun info hno => ?_⟩
  have hfind : info.AsyncContextMap.find?
      (fun e => e.snd.AsyncCalls.any (fun c => c.Destination == callerAddr)) = none := by
    rw [List.find?_eq_none]
    intro p hp
    simp only [List.any_eq_true, beq_iff_eq]
    rintro ⟨c, hc, hdest⟩
    exact hno p hp c hc hdest
  simp [processCallbackStack, hfind]

/-- Witness for C8's amended theorem: a missing stored value, and a
stored pending set whose only destinations are `B` and `C` receiving a
callback from `Z`. -/
theorem processCallbackStack_error_spec_witness :
    (processCallbackStack (fun _ => none) none "Z"
      = (none, some GoErr.errJsonUnmarshal)) ∧
    (∀ p ∈ infoTwoCalls.AsyncContextMap, ∀ c ∈ p.snd.AsyncCalls,
      c.Destination ≠ "Z") ∧
    processCallbackStack (fun _ => none) (some infoTwoCalls) "Z"
      = (some infoTwoCalls, some GoErr.errCallBackFuncNotExpected) :=
  ⟨(processCallbackStack_error_spec (fun _ => none) "Z").1,
   by decide,
   (processCallbackStack_error_spec (fun _ => none) "Z").2 infoTwoCalls (by decide)⟩

/-- C3 (code defect, flagged in the source spec as a confirmed
implementation defect): over a stored pending set of two matching calls,
each matching callback dispatch leaves the stored map completely
unchanged — the swap-remove mutates a local slice that is never written
back and the shrunken map is never re-saved — so the pending map is never
drained, the storage key is never erased, and a third matching callback
still returns no error rather than `CallBackFuncNotExpected`.  Even for a
pending set of size one, where the key does get erased, the following
callback dispatch returns the JSON unmarshal error, not
`CallBackFuncNotExpected`. -/
theorem processCallbackStack_never_drains :
    processCallbackStack (fun _ => none) (some infoTwoCalls) "B"
      = (some infoTwoCalls, none) ∧
    processCallbackStack (fun _ => none) (some infoTwoCalls) "C"
      = (some infoTwoCalls, none) ∧
    (processCallbackStack (fun _ => none) (some infoTwoCalls) "B").snd
      ≠ some GoErr.errCallBackFuncNotExpected ∧
    processCallbackStack (fun _ => none) (some infoOneCall) "B"
      = (none, none) ∧
    (processCallbackStack (fun _ => none) none "B").snd
      = some GoErr.errJsonUnmarshal :=
  ⟨rfl, rfl, by decide, rfl, rfl⟩

/-- C4 (code defect, flagged in the source spec as an open question /
almost-certain bug): with 100 gas left and two async calls at 50% each,
the source's `gasLeft*uint64(asyncCall.GasPercentage/totalPercentage)`
truncates `50/100` to `0`, so the calls receive `[0, 100]` (the whole
remainder lands on the last call) instead of the claimed
`gasLeft * percentage / totalPercentage = [50, 50]`; the single-entry
case does receive the entire `gasLeft`. -/
theorem setupAsyncCallsGas_truncation_bug :
    (setupAsyncCallsGasByPercentages 100 infoFiftyFifty).AsyncContextMap.map
        (fun e => e.snd.AsyncCalls.map (fun c => c.GasLimit))
      = [[0, 100]] ∧
    (100 * 50 / 100 : Nat) = 50 ∧
    (setupAsyncCallsGasByPercentages 100 infoSingleFifty).AsyncContextMap.map
        (fun e => e.snd.AsyncCalls.map (fun c => c.GasLimit))
      = [[100]] :=
  ⟨by decide, by decide, by decide⟩

theorem PopSetActiveState_of_stack_cons {α : Type} (c : StackCtx α) (a : α)
    (rest : List α) (h : c.stack = a :: rest) :
    PopSetActiveState c = ⟨a, rest⟩ := by
  rcases c with ⟨act, stk⟩
  dsimp only at h
  subst h
  rfl

theorem PopDiscard_of_stack_cons {α : Type} (c : StackCtx α) (a : α)
    (rest : List α) (h : c.stack = a :: rest) :
    PopDiscard c = ⟨c.active, rest⟩ := by
  rcases c with ⟨act, stk⟩
  dsimp only at h
  subst h
  rfl

theorem PopMergeActiveState_of_stack_cons {α : Type} (merge : α → α → α)
    (c : StackCtx α) (a : α) (rest : List α) (h : c.stack = a :: rest) :
    PopMergeActiveState merge c = ⟨merge a c.active, rest⟩ := by
  rcases c with ⟨act, stk⟩
  dsimp only at h
  subst h
  rfl

theorem transferStep_stacks {β ω ρ σ ν : Type} (ops : HostOps β ω ρ σ ν)
    (s1 : HostState β ω ρ σ) :
    (transferStep ops s1).fst.bigInt.stack = s1.bigInt.stack ∧
    (transferStep ops s1).fst.output.stack = s1.output.stack ∧
    (transferStep ops s1).fst.runtime.stack = s1.runtime.stack ∧
    (transferStep ops s1).fst.storage.stack = s1.storage.stack := by
  simp [transferStep]

theorem andThen_stacks {β ω ρ σ : Type}
    (step : HostState β ω ρ σ → HostState β ω ρ σ × Option GoErr)
    (hsp : StacksPreserved step) (r : HostState β ω ρ σ × Option GoErr) :
    (andThen step r).fst.bigInt.stack = r.fst.bigInt.stack ∧
    (andThen step r).fst.output.stack = r.fst.output.stack ∧
    (andThen step r).fst.runtime.stack = r.fst.runtime.stack ∧
    (andThen step r).fst.storage.stack = r.fst.storage.stack := by
  rcases r with ⟨t, e⟩
  cases e with
  | some e => simp [andThen]
  | none => simpa [andThen] using hsp t

theorem prepareOnDest_stacks {β ω ρ σ ν : Type} (ops : HostOps β ω ρ σ ν)
    (s : HostState β ω ρ σ) :
    (prepareOnDest ops s).bigInt.stack = s.bigInt.active :: s.bigInt.stack ∧
    (prepareOnDest ops s).output.stack = s.output.active :: s.output.stack ∧
    (prepareOnDest ops s).runtime.stack = s.runtime.active :: s.runtime.stack ∧
    (prepareOnDest ops s).storage.stack = s.storage.active :: s.storage.stack := by
  simp [prepareOnDest, PushState]

theorem innerRunOnDest_stacks {β ω ρ σ ν : Type} (ops : HostOps β ω ρ σ ν)
    (hex : StacksPreserved ops.hostExecute)
    (hasync : StacksPreserved ops.processAsyncInfoFn)
    (s : HostState β ω ρ σ) :
    (innerRunOnDest ops s).fst.bigInt.stack = s.bigInt.active :: s.bigInt.stack ∧
    (innerRunOnDest ops s).fst.output.stack = s.output.active :: s.output.stack ∧
    (innerRunOnDest ops s).fst.runtime.stack = s.runtime.active :: s.runtime.stack ∧
    (innerRunOnDest ops s).fst.storage.stack = s.storage.active :: s.storage.stack := by
  obtain ⟨p1, p2, p3, p4⟩ := prepareOnDest_stacks ops s
  obtain ⟨t1, t2, t3, t4⟩ := transferStep_stacks ops (prepareOnDest ops s)
  obtain ⟨e1, e2, e3, e4⟩ :=
    andThen_stacks ops.hostExecute hex (transferStep ops (prepareOnDest ops s))
  obtain ⟨a1, a2, a3, a4⟩ :=
    andThen_stacks ops.processAsyncInfoFn hasync
      (andThen ops.hostExecute (transferStep ops (prepareOnDest ops s)))
  refine ⟨?_, ?_, ?_, ?_⟩ <;> simp only [innerRunOnDest]
  · rw [a1, e1, t1, p1]
  · rw [a2, e2, t2, p2]
  · rw [a3, e3, t3, p3]
  · rw [a4, e4, t4, p4]

theorem prepareOnSame_stacks {β ω ρ σ ν : Type} (ops : HostOps β ω ρ σ ν)
    (s : HostState β ω ρ σ) :
    (prepareOnSame ops s).bigInt.stack = s.bigInt.active :: s.bigInt.stack ∧
    (prepareOnSame ops s).output.stack = s.output.active :: s.output.stack ∧
    (prepareOnSame ops s).runtime.stack = s.runtime.active :: s.runtime.stack ∧
    (prepareOnSame ops s).storage.stack = s.storage.stack := by
  simp [prepareOnSame, PushState]

theorem innerRunOnSame_stacks {β ω ρ σ ν : Type} (ops : HostOps β ω ρ σ ν)
    (hex : StacksPreserved ops.hostExecute)
    (s : HostState β ω ρ σ) :
    (innerRunOnSame ops s).fst.bigInt.stack = s.bigInt.active :: s.bigInt.stack ∧
    (innerRunOnSame ops s).fst.output.stack = s.output.active :: s.output.stack ∧
    (innerRunOnSame ops s).fst.runtime.stack = s.runtime.active :: s.runtime.stack ∧
    (innerRunOnSame ops s).fst.storage.stack = s.storage.stack := by
  obtain ⟨p1, p2, p3, p4⟩ := prepareOnSame_stacks ops s
  obtain ⟨t1, t2, t3, t4⟩ := transferStep_stacks ops (prepareOnSame ops s)
  obtain ⟨e1, e2, e3, e4⟩ :=
    andThen_stacks ops.hostExecute hex (transferStep ops (prepareOnSame ops s))
  refine ⟨?_, ?_, ?_, ?_⟩ <;> simp only [innerRunOnSame]
  · rw [e1, t1, p1]
  · rw [e2, t2, p2]
  · rw [e3, t3, p3]
  · rw [e4, t4, p4]

/-- C1: if the inner execution of `ExecuteOnDestContext` (value transfer,
execute, or async-info processing) returns an error, and the inner steps
leave the state stacks balanced, then the deferred
`finishExecuteOnDestContext` restores all four contexts via
`PopSetActiveState` — the final host state equals the pre-call state, so
every stack has the same depth and content as before the call — and the
returned `VMOutput` is the error-wrapping output created from the active
output state as it stood before any state was popped. -/
theorem ExecuteOnDestContext_error_rollback {β ω ρ σ ν : Type}
    (ops : HostOps β ω ρ σ ν) (s m : HostState β ω ρ σ) (e : GoErr)
    (hex : StacksPreserved ops.hostExecute)
    (hasync : StacksPreserved ops.processAsyncInfoFn)
    (hrun : innerRunOnDest ops s = (m, some e)) :
    ExecuteOnDestContext ops s
      = (s, ops.createVMOutputInCaseOfError m.output.active e, some e) := by
  have hst := innerRunOnDest_stacks ops hex hasync s
  rw [hrun] at hst
  obtain ⟨h1, h2, h3, h4⟩ := hst
  have hb : PopSetActiveState m.bigInt = s.bigInt :=
    PopSetActiveState_of_stack_cons m.bigInt _ _ h1
  have ho : PopSetActiveState m.output = s.output :=
    PopSetActiveState_of_stack_cons m.output _ _ h2
  have hr : PopSetActiveState m.runtime = s.runtime :=
    PopSetActiveState_of_stack_cons m.runtime _ _ h3
  have hg : PopSetActiveState m.storage = s.storage :=
    PopSetActiveState_of_stack_cons m.storage _ _ h4
  simp only [ExecuteOnDestContext, hrun, finishExecuteOnDestContext]
  rw [hb, ho, hr, hg]

/-- Witness for C1: a concrete host over `Nat` states whose `execute`
step fails; the sub-call leaves the initial state fully restored and
returns the error-wrapped output built from the pre-pop active output. -/
theorem ExecuteOnDestContext_error_rollback_witness :
    StacksPreserved (HostOps.hostExecute opsErrW) ∧
    StacksPreserved (HostOps.processAsyncInfoFn opsErrW) ∧
    innerRunOnDest opsErrW sW
      = (⟨⟨0, [1]⟩, ⟨2, [2]⟩, ⟨13, [3]⟩, ⟨5, [4]⟩⟩, some GoErr.errReturnCodeNotOk) ∧
    ExecuteOnDestContext opsErrW sW = (sW, 102, some GoErr.errReturnCodeNotOk) :=
  ⟨fun _ => ⟨rfl, rfl, rfl, rfl⟩, fun _ => ⟨rfl, rfl, rfl, rfl⟩, rfl,
   ExecuteOnDestContext_error_rollback opsErrW sW
     ⟨⟨0, [1]⟩, ⟨2, [2]⟩, ⟨13, [3]⟩, ⟨5, [4]⟩⟩ GoErr.errReturnCodeNotOk
     (fun _ => ⟨rfl, rfl, rfl, rfl⟩) (fun _ => ⟨rfl, rfl, rfl, rfl⟩) rfl⟩

/-- C5: if the inner execution of `ExecuteOnDestContext` succeeds, the
deferred finish first extracts the child's `VMOutput` from the active
output state and returns it, then restores bigint, runtime and storage
via `PopSetActiveState` while the output context is popped with
`PopMergeActiveState` — the child's accumulated output is absorbed into
the parent's snapshot. -/
theorem ExecuteOnDestContext_success_merge {β ω ρ σ ν : Type}
    (ops : HostOps β ω ρ σ ν) (s m : HostState β ω ρ σ)
    (hex : StacksPreserved ops.hostExecute)
    (hasync : StacksPreserved ops.processAsyncInfoFn)
    (hrun : innerRunOnDest ops s = (m, none)) :
    ExecuteOnDestContext ops s
      = ({ bigInt := s.bigInt
           output := ⟨ops.mergeOutput s.output.active m.output.active, s.output.stack⟩
           runtime := s.runtime
           storage := s.storage },
         ops.getVMOutput m.output.active, none) := by
  have hst := innerRunOnDest_stacks ops hex hasync s
  rw [hrun] at hst
  obtain ⟨h1, h2, h3, h4⟩ := hst
  have hb : PopSetActiveState m.bigInt = s.bigInt :=
    PopSetActiveState_of_stack_cons m.bigInt _ _ h1
  have ho : PopMergeActiveState ops.mergeOutput m.output
      = ⟨ops.mergeOutput s.output.active m.output.active, s.output.stack⟩ :=
    PopMergeActiveState_of_stack_cons ops.mergeOutput m.output _ _ h2
  have hr : PopSetActiveState m.runtime = s.runtime :=
    PopSetActiveState_of_stack_cons m.runtime _ _ h3
  have hg : PopSetActiveState m.storage = s.storage :=
    PopSetActiveState_of_stack_cons m.storage _ _ h4
  simp only [ExecuteOnDestContext, hrun, finishExecuteOnDestContext]
  rw [hb, ho, hr, hg]

/-- Witness for C5: a concrete host over `Nat` states whose `execute`
step succeeds; the child's output is merged into the parent snapshot and
the child's `VMOutput` is returned. -/
theorem ExecuteOnDestContext_success_merge_witness :
    StacksPreserved (HostOps.hostExecute opsOkW) ∧
    StacksPreserved (HostOps.processAsyncInfoFn opsOkW) ∧
    innerRunOnDest opsOkW sW
      = (⟨⟨0, [1]⟩, ⟨7, [2]⟩, ⟨13, [3]⟩, ⟨12, [4]⟩⟩, none) ∧
    ExecuteOnDestContext opsOkW sW = (⟨⟨1, []⟩, ⟨9, []⟩, ⟨3, []⟩, ⟨4, []⟩⟩, 7, none) :=
  ⟨fun _ => ⟨rfl, rfl, rfl, rfl⟩, fun _ => ⟨rfl, rfl, rfl, rfl⟩, rfl,
   ExecuteOnDestContext_success_merge opsOkW sW
     ⟨⟨0, [1]⟩, ⟨7, [2]⟩, ⟨13, [3]⟩, ⟨12, [4]⟩⟩
     (fun _ => ⟨rfl, rfl, rfl, rfl⟩) (fun _ => ⟨rfl, rfl, rfl, rfl⟩) rfl⟩

/-- C6: if the inner execution of `ExecuteOnSameContext` succeeds, bigint
and output are popped with `PopDiscard` — their stacks end exactly one
entry shallower than after the push, equal to the pre-call stacks, while
the child's active states are kept — the runtime context is popped with
`PopSetActiveState`, restoring the caller's frame with its stack depth
unchanged relative to before the call, and the storage context is neither
pushed nor popped: it is exactly what the inner execution left, with its
stack untouched. -/
theorem ExecuteOnSameContext_success_discard {β ω ρ σ ν : Type}
    (ops : HostOps β ω ρ σ ν) (s m : HostState β ω ρ σ)
    (hex : StacksPreserved ops.hostExecute)
    (hrun : innerRunOnSame ops s = (m, none)) :
    ExecuteOnSameContext ops s
      = ({ bigInt := ⟨m.bigInt.active, s.bigInt.stack⟩
           output := ⟨m.output.active, s.output.stack⟩
           runtime := s.runtime
           storage := m.storage }, none) ∧
    m.storage.stack = s.storage.stack := by
  have hst := innerRunOnSame_stacks ops hex s
  rw [hrun] at hst
  obtain ⟨h1, h2, h3, h4⟩ := hst
  have hb : PopDiscard m.bigInt = ⟨m.bigInt.active, s.bigInt.stack⟩ :=
    PopDiscard_of_stack_cons m.bigInt _ _ h1
  have ho : PopDiscard m.output = ⟨m.output.active, s.output.stack⟩ :=
    PopDiscard_of_stack_cons m.output _ _ h2
  have hr : PopSetActiveState m.runtime = s.runtime :=
    PopSetActiveState_of_stack_cons m.runtime _ _ h3
  refine ⟨?_, h4⟩
  simp only [ExecuteOnSameContext, hrun, finishExecuteOnSameContext]
  rw [hb, ho, hr]

/-- Witness for C6: a concrete host over `Nat` states; after a successful
same-context sub-call the bigint/output stacks are back to the pre-call
depth with the child's active values kept, the runtime context is fully
restored, and storage keeps the child's active value with its stack
untouched. -/
theorem ExecuteOnSameContext_success_discard_witness :
    StacksPreserved (HostOps.hostExecute opsOkW) ∧
    innerRunOnSame opsOkW sW
      = (⟨⟨1, [1]⟩, ⟨9, [2]⟩, ⟨13, [3]⟩, ⟨11, []⟩⟩, none) ∧
    (ExecuteOnSameContext opsOkW sW
        = (⟨⟨1, []⟩, ⟨9, []⟩, ⟨3, []⟩, ⟨11, []⟩⟩, none) ∧
      (⟨⟨1, [1]⟩, ⟨9, [2]⟩, ⟨13, [3]⟩, ⟨11, []⟩⟩ : HostState Nat Nat Nat Nat).storage.stack
        = sW.storage.stack) :=
  ⟨fun _ => ⟨rfl, rfl, rfl, rfl⟩, rfl,
   ExecuteOnSameContext_success_discard opsOkW sW
     ⟨⟨1, [1]⟩, ⟨9, [2]⟩, ⟨13, [3]⟩, ⟨11, []⟩⟩
     (fun _ => ⟨rfl, rfl, rfl, rfl⟩) rfl⟩

end VMCore
